import Mathlib

/-!
protoc-gen-gopool: the pool template and the plugin driver.

A shallow embedding of `cmd/protoc-gen-gopool/main.go`:

* `main` — the version switch and the hand-over to the plugin protocol;
* `pluginCallback` — the function literal handed to `protogen.Options.Run`;
* `GenerateFile` — one output file per input file;
* `generateMessagePool` — the per-message template.

The `protogen` values the program touches (`GoIdent`, `Message`, `File`,
`GeneratedFile`, `Plugin`) are records holding the fields the program reads.
A `GeneratedFile` keeps the lines printed so far, one list entry per call of
`P`, together with the import bookkeeping `QualifiedGoIdent` maintains.
-/

namespace Gopool

/-! ## The protogen data the program reads -/

/-- A Go identifier together with the import path of its package
(`protogen.GoIdent`). -/
structure GoIdent where
  GoName : String
  GoImportPath : String
  deriving DecidableEq, Repr

/-- A message descriptor (`protogen.Message`): `Name` is `Desc.Name()`, the
declared short name; `GoIdent` the Go type generated for the message; `Fields`
the names of its fields; `Messages` the messages declared inside it. -/
inductive Message where
  | mk (Name : String) (GoIdent : GoIdent) (Fields : List String)
      (Messages : List Message)
  deriving Repr

/-- The declared short name, `message.Desc.Name()`. -/
def Message.Name : Message → String
  | .mk n _ _ _ => n

/-- The Go identifier of the generated type, `message.GoIdent`. -/
def Message.GoIdent : Message → GoIdent
  | .mk _ i _ _ => i

/-- The field names, `message.Fields`. -/
def Message.Fields : Message → List String
  | .mk _ _ fs _ => fs

/-- The nested message declarations, `message.Messages`. -/
def Message.Messages : Message → List Message
  | .mk _ _ _ ms => ms

/-- A file of the request (`protogen.File`): `Messages` are the top-level
message declarations. -/
structure File where
  GoPackageName : String
  GoImportPath : String
  GeneratedFilenamePrefix : String
  Messages : List Message
  Generate : Bool

/-- A generated file (`protogen.GeneratedFile`): `buf` holds the printed lines,
oldest first; `packageNames` maps an import path to the package name chosen for
it, newest entry first; `usedPackageNames` are the names taken so far. -/
structure GeneratedFile where
  filename : String
  goImportPath : String
  buf : List String
  packageNames : List (String × String)
  usedPackageNames : List String
  deriving DecidableEq, Repr

/-- The plugin (`protogen.Plugin`): the files of the request in request order,
the generated files in creation order, and the value of the
`experimental_strip_nonfunctional_codegen` parameter. -/
structure Plugin where
  Files : List File
  genFiles : List GeneratedFile
  stripNonFunctional : Bool

/-- One operand of `GeneratedFile.P`: a `GoIdent` is printed qualified, every
other operand of this program is a string (or a named string type) and is
printed as it is. -/
inductive PArg where
  | str (s : String)
  | ident (i : GoIdent)

/-! ## The protogen operations the program calls -/

section Emit

/- The package name protogen picks for an import path that has none yet, given
the names already taken (`cleanPackageName (path.Base p)`, then a numeric suffix
until the name is free). It is a parameter of the development. -/
variable (freshPackageName : List String → String → String)

/-- `(*GeneratedFile).QualifiedGoIdent`: an identifier of the file's own package
is its bare name; any other is `pkg.Name`, the package name being looked up, or
chosen and recorded on first use. -/
def QualifiedGoIdent (g : GeneratedFile) (ident : GoIdent) : String × GeneratedFile :=
  if ident.GoImportPath = g.goImportPath then
    (ident.GoName, g)
  else
    match g.packageNames.lookup ident.GoImportPath with
    | some packageName => (packageName ++ "." ++ ident.GoName, g)
    | none =>
      let packageName := freshPackageName g.usedPackageNames ident.GoImportPath
      (packageName ++ "." ++ ident.GoName,
        { g with
          packageNames := (ident.GoImportPath, packageName) :: g.packageNames
          usedPackageNames := packageName :: g.usedPackageNames })

/-- The operands of one `P` call printed left to right: the text so far and the
file state after the qualifications. -/
def printArgs (g : GeneratedFile) (acc : String) : List PArg → String × GeneratedFile
  | [] => (acc, g)
  | .str s :: rest => printArgs g (acc ++ s) rest
  | .ident i :: rest =>
    let r := QualifiedGoIdent freshPackageName g i
    printArgs r.2 (acc ++ r.1) rest

/-- `(*GeneratedFile).P`: prints the operands and ends the line. -/
def P (g : GeneratedFile) (v : List PArg) : GeneratedFile :=
  let r := printArgs freshPackageName g "" v
  { r.2 with buf := r.2.buf ++ [r.1] }

/-- `(*Plugin).NewGeneratedFile`: an empty file, registered with the plugin
by `GenerateFile` once it is filled (the plugin holds a pointer to it). -/
def NewGeneratedFile (filename : String) (goImportPath : String) : GeneratedFile :=
  { filename := filename, goImportPath := goImportPath, buf := [],
    packageNames := [], usedPackageNames := [] }

/-! ## The program -/

/-- The package-level variable `poolIndent`,
`protogen.GoImportPath("sync").Ident("Pool")`. -/
def poolIndent : GoIdent := { GoName := "Pool", GoImportPath := "sync" }

/-- The function `generateMessagePool` of `main.go`, statement by statement.
Go evaluates the operands of a call before the call, so each explicit
`g.QualifiedGoIdent` runs before the `P` it feeds. -/
def generateMessagePool (g : GeneratedFile) (message : Message) : GeneratedFile :=
  let messageName := message.Name
  -- Generate the pool variable
  let g := P freshPackageName g [.str "// ", .str messageName, .str "Pool is a sync.Pool for ", .str messageName]
  let g := P freshPackageName g [.str "var ", .str messageName, .str "Pool = &", .ident poolIndent, .str "\x7b"]
  let g := P freshPackageName g [.str "New: func() interface\x7b\x7d \x7b"]
  let q := QualifiedGoIdent freshPackageName g message.GoIdent
  let g := P freshPackageName q.2 [.str "return &", .str q.1, .str "\x7b\x7d"]
  let g := P freshPackageName g [.str "\x7d,"]
  let g := P freshPackageName g [.str "\x7d"]
  let g := P freshPackageName g []
  -- Generate Get method
  let g := P freshPackageName g [.str "// Get", .str messageName, .str " gets a ", .str messageName, .str " from the pool"]
  let q := QualifiedGoIdent freshPackageName g message.GoIdent
  let g := P freshPackageName q.2 [.str "func Get", .str messageName, .str "() *", .str q.1, .str " \x7b"]
  let q := QualifiedGoIdent freshPackageName g message.GoIdent
  let g := P freshPackageName q.2 [.str "return ", .str messageName, .str "Pool.Get().(*", .str q.1, .str ")"]
  let g := P freshPackageName g [.str "\x7d"]
  let g := P freshPackageName g []
  -- Generate Put method
  let g := P freshPackageName g [.str "// Put", .str messageName, .str " puts a ", .str messageName, .str " back to the pool"]
  let q := QualifiedGoIdent freshPackageName g message.GoIdent
  let g := P freshPackageName q.2 [.str "func Put", .str messageName, .str "(m *", .str q.1, .str ") \x7b"]
  let g := P freshPackageName g [.str "// Reset the message before putting it back to the pool"]
  let g := P freshPackageName g [.str "m.Reset()"]
  let g := P freshPackageName g [.str messageName, .str "Pool.Put(m)"]
  let g := P freshPackageName g [.str "\x7d"]
  P freshPackageName g []

/-- The function `GenerateFile` of `main.go`. The result is the plugin with the
new file registered, and the file itself (the local `g`). -/
def GenerateFile (gen : Plugin) (file : File) : Plugin × GeneratedFile :=
  let filename := file.GeneratedFilenamePrefix ++ ".pb.pool.go"
  let g := NewGeneratedFile filename file.GoImportPath
  let g := P freshPackageName g [.str "package ", .str file.GoPackageName]
  let g := P freshPackageName g []
  let g := file.Messages.foldl (generateMessagePool freshPackageName) g
  ({ gen with genFiles := gen.genFiles ++ [g] }, g)


/-- The lines one run of `generateMessagePool` prints, for the short name `s`,
the qualified type `T` and the qualified pool type `pool`: the closed form of
the template, proved equal to the run in `generateMessagePool_eq`. -/
def poolBlock (s T pool : String) : List String :=
  [ "// " ++ s ++ "Pool is a sync.Pool for " ++ s,
    "var " ++ s ++ "Pool = &" ++ pool ++ "\x7b",
    "New: func() interface\x7b\x7d \x7b",
    "return &" ++ T ++ "\x7b\x7d",
    "\x7d,",
    "\x7d",
    "",
    "// Get" ++ s ++ " gets a " ++ s ++ " from the pool",
    "func Get" ++ s ++ "() *" ++ T ++ " \x7b",
    "return " ++ s ++ "Pool.Get().(*" ++ T ++ ")",
    "\x7d",
    "",
    "// Put" ++ s ++ " puts a " ++ s ++ " back to the pool",
    "func Put" ++ s ++ "(m *" ++ T ++ ") \x7b",
    "// Reset the message before putting it back to the pool",
    "m.Reset()",
    s ++ "Pool.Put(m)",
    "\x7d",
    "" ]

/-- The file `g` with its printed lines replaced. -/
def GeneratedFile.withBuf (g : GeneratedFile) (b : List String) : GeneratedFile :=
  { g with buf := b }

/-- The qualified name `QualifiedGoIdent` returns. -/
def qualified (g : GeneratedFile) (ident : GoIdent) : String :=
  (QualifiedGoIdent freshPackageName g ident).1

/-- The file state `QualifiedGoIdent` leaves. -/
def registered (g : GeneratedFile) (ident : GoIdent) : GeneratedFile :=
  (QualifiedGoIdent freshPackageName g ident).2

/-- The name `sync.Pool` gets in a file whose Go import path is `importPath`:
the value of `qualified` for `poolIndent` in a file that has no import yet. -/
def poolName (importPath : String) : String :=
  if "sync" = importPath then "Pool" else freshPackageName [] "sync" ++ "." ++ "Pool"

/-- The function literal `main` hands to `protogen.Options.Run`: the loop over
`gen.Files`, and the error it returns (`nil` is `none`). The three assignments
of supported features and editions copy constants and touch no file. -/
def pluginCallback (gen : Plugin) : Plugin × Option String :=
  let gen := gen.Files.foldl
    (fun gen f => if f.Generate then (GenerateFile freshPackageName gen f).1 else gen) gen
  (gen, none)

/-- The file state `g'` extends `g`: same import path, and every package
name `g` has chosen is still the one `g'` has. -/
def Extends (g g' : GeneratedFile) : Prop :=
  g'.goImportPath = g.goImportPath ∧
    ∀ p n, g.packageNames.lookup p = some n → g'.packageNames.lookup p = some n

/-- The identifier needs no new import in `g`: it is of the file's own package,
or its package already has a name. -/
def Known (g : GeneratedFile) (i : GoIdent) : Prop :=
  i.GoImportPath = g.goImportPath ∨ ∃ n, g.packageNames.lookup i.GoImportPath = some n

end Emit

/-! ## The response of the plugin -/

/-- The response envelope (`pluginpb.CodeGeneratorResponse`): an error, or the
generated files as pairs of name and content. -/
structure CodeGeneratorResponse where
  error : Option String
  files : List (String × String)
  deriving DecidableEq, Repr

/-- The loop of `(*Plugin).Response` over the generated files: the first file
whose content cannot be rendered turns the whole response into an error. The
rendering of a file (`Content`: import block, gofmt) is the parameter
`content`. -/
def responseFiles (content : GeneratedFile → Except String String) :
    List GeneratedFile → List (String × String) → CodeGeneratorResponse
  | [], acc => { error := none, files := acc }
  | g :: gs, acc =>
    match content g with
    | .error e => { error := some e, files := [] }
    | .ok c => responseFiles content gs (acc ++ [(g.filename, c)])

/-- The response `protogen.Options.Run` writes after the callback returned
`err` for the plugin `gen`, module and annotation options left at their
defaults. -/
def Response (content : GeneratedFile → Except String String) (gen : Plugin)
    (err : Option String) : CodeGeneratorResponse :=
  match err with
  | some e => { error := some e, files := [] }
  | none => responseFiles content gen.genFiles []

/-! ## The entry point -/

/-- `filepath.Base` on a Unix path: the last element, trailing slashes
removed; `.` for the empty path and `/` for a path of slashes only. -/
def filepathBase (path : String) : String :=
  if path = "" then "."
  else
    let p := (path.data.reverse.dropWhile (· == '/')).reverse
    let p := (p.reverse.takeWhile (· != '/')).reverse
    if p = [] then "/" else String.mk p

/-- What the process does, as seen from outside. -/
inductive Effect where
  /-- Text written to standard output. -/
  | writeStdout (s : String)
  /-- The call `os.Exit code`. -/
  | exit (code : Nat)
  /-- The call `protogen.Options.Run` with the callback: the plugin protocol is
  handed the process. -/
  | runProtocol
  deriving DecidableEq, Repr

/-- The function `main` of `main.go` on the argument vector `os.Args`:
`os.Exit` ends the process, so nothing follows it. -/
def main (args : List String) : List Effect :=
  if args.length = 2 ∧ args[1]? = some "--version" then
    [ .writeStdout (filepathBase (args.headD "") ++ " " ++ "v0.0.1" ++ "\n"),
      .exit 0 ]
  else
    [ .runProtocol ]

/-! ## Reading the generated Go text -/

/-- The line begins with the text `p`. -/
def startsWith (p line : String) : Bool :=
  p.data.isPrefixOf line.data

/-- A package-level declaration of the generated Go text. -/
inductive Decl where
  | var (name : String)
  | func (name : String)
  deriving DecidableEq, Repr

/-- The declared identifier. -/
def Decl.name : Decl → String
  | .var n => n
  | .func n => n

/-- The declaration a line opens at package level: after `var ` the word up to
the next blank, after `func ` the name up to the parameter list. -/
def declaration (line : String) : Option Decl :=
  if startsWith "var " line then
    some (.var (String.mk ((line.data.drop 4).takeWhile (· != ' '))))
  else if startsWith "func " line then
    some (.func (String.mk ((line.data.drop 5).takeWhile (· != '('))))
  else
    none

/-- The declarations of a list of lines, in order. -/
def declarations (lines : List String) : List Decl :=
  lines.filterMap declaration

/-- The identifiers a list of lines declares, in order. -/
def declaredIdents (lines : List String) : List String :=
  (declarations lines).map Decl.name

/-- The three declarations the template makes for the short name `s`. -/
def poolDecls (s : String) : List Decl :=
  [.var (s ++ "Pool"), .func ("Get" ++ s), .func ("Put" ++ s)]

/-- The three identifiers the template declares for the short name `s`. -/
def poolIdents (s : String) : List String :=
  [s ++ "Pool", "Get" ++ s, "Put" ++ s]

/-- The lines after the first line `isHeader` accepts, up to the first line
equal to `closing`. -/
def bodyAfter (isHeader : String → Bool) (closing : String) (lines : List String) :
    List String :=
  ((lines.dropWhile (fun l => !isHeader l)).drop 1).takeWhile (· != closing)

/-- The body of the function `name`: the lines between `func name(` and the
closing brace. -/
def funcBody (name : String) (lines : List String) : List String :=
  bodyAfter (startsWith ("func " ++ name ++ "(")) "\x7d" lines

/-- The body of the `New` factory of a pool literal. -/
def factoryBody (lines : List String) : List String :=
  bodyAfter (· == "New: func() interface\x7b\x7d \x7b") "\x7d," lines

/-- The check `protogen` makes on the Go import path of every file before any
generator runs: the path holds a dot or a slash (a bare word is refused as
`invalid Go import path`, being mistaken for a package name). -/
def GoImportPathIsValid (p : String) : Bool :=
  p.data.any (fun c => c == '.' || c == '/')

/-- A letter of a proto identifier (`isLetter` of `protoreflect`). -/
def isLetter (c : Char) : Bool :=
  c == '_' || ('a' ≤ c && c ≤ 'z') || ('A' ≤ c && c ≤ 'Z')

/-- A letter or digit of a proto identifier. -/
def isLetterDigit (c : Char) : Bool :=
  isLetter c || ('0' ≤ c && c ≤ '9')

/-- `protoreflect.Name.IsValid`: a letter, then letters and digits. -/
def NameIsValid (s : String) : Bool :=
  match s.data with
  | [] => false
  | c :: cs => isLetter c && cs.all isLetterDigit

/-! ## The flattening the specification describes -/

mutual
/-- The message followed by the messages declared inside it, depth first, in
declaration order. -/
def flattenMessage : Message → List Message
  | .mk n i fs ms => .mk n i fs ms :: flattenMessages ms
/-- The specification's flattened message sequence of a list of declarations. -/
def flattenMessages : List Message → List Message
  | [] => []
  | m :: ms => flattenMessage m ++ flattenMessages ms
end

/-- The message without the messages declared inside it. -/
def Message.withoutNested : Message → Message
  | .mk n i fs _ => .mk n i fs []

/-! ## Example inputs -/

/-- A package-name choice for the examples: the import path itself when it is
free, else the path with the number of taken names appended. -/
def examplePackageName (used : List String) (p : String) : String :=
  if p ∈ used then p ++ toString used.length else p

/-- The file `test.proto` of the integration test, with `TestMessage` and
`AnotherMessage`, under the generated-filename prefix `test` (the prefix of
`paths=source_relative`). -/
def testFile : File :=
  { GoPackageName := "test", GoImportPath := "./test", GeneratedFilenamePrefix := "test",
    Messages :=
      [ .mk "TestMessage" ⟨"TestMessage", "./test"⟩ ["name", "id"] [],
        .mk "AnotherMessage" ⟨"AnotherMessage", "./test"⟩ ["active", "description"] [] ],
    Generate := true }

/-- A dependency of the request: present in `gen.Files`, not to be generated. -/
def depFile : File :=
  { GoPackageName := "dep", GoImportPath := "./dep", GeneratedFilenamePrefix := "dep",
    Messages := [ .mk "Dep" ⟨"Dep", "./dep"⟩ [] [] ], Generate := false }

/-- A file with a message `Inner` declared inside the message `Outer`. -/
def nestedFile : File :=
  { GoPackageName := "test", GoImportPath := "./test", GeneratedFilenamePrefix := "nested",
    Messages := [ .mk "Outer" ⟨"Outer", "./test"⟩ ["inner"]
      [ .mk "Inner" ⟨"Outer_Inner", "./test"⟩ ["id"] [] ] ],
    Generate := true }

/-- A message declared as `test_message`; its Go type is `TestMessage`. -/
def snakeMessage : Message :=
  .mk "test_message" ⟨"TestMessage", "./test"⟩ ["id"] []

/-- A file declaring the two messages `Get` and `Pool`. -/
def clashFile : File :=
  { GoPackageName := "test", GoImportPath := "./test", GeneratedFilenamePrefix := "clash",
    Messages := [ .mk "Get" ⟨"Get", "./test"⟩ [] [], .mk "Pool" ⟨"Pool", "./test"⟩ [] [] ],
    Generate := true }

/-- The messages of `testFile` declared with other fields and with a message nested in
the first one: same package name, same prefix, same top-level message names. -/
def testFileVariant : File :=
  { GoPackageName := "test", GoImportPath := "./test", GeneratedFilenamePrefix := "test",
    Messages :=
      [ .mk "TestMessage" ⟨"TestMessage", "./test"⟩ ["title"]
          [ .mk "Detail" ⟨"TestMessage_Detail", "./test"⟩ ["text"] [] ],
        .mk "AnotherMessage" ⟨"AnotherMessage", "./test"⟩ [] [] ],
    Generate := true }

/-- A plugin holding the given files and nothing generated yet. -/
def pluginOf (files : List File) (strip : Bool) : Plugin :=
  { Files := files, genFiles := [], stripNonFunctional := strip }

section Emit

variable (freshPackageName : List String → String → String)

/-! ## Lemmas on the protogen operations -/

@[simp]
theorem withBuf_buf (g : GeneratedFile) (b : List String) :
    (g.withBuf b).buf = b := rfl

@[simp]
theorem withBuf_withBuf (g : GeneratedFile) (b c : List String) :
    (g.withBuf b).withBuf c = g.withBuf c := rfl

@[simp]
theorem withBuf_goImportPath (g : GeneratedFile) (b : List String) :
    (g.withBuf b).goImportPath = g.goImportPath := rfl

@[simp]
theorem withBuf_filename (g : GeneratedFile) (b : List String) :
    (g.withBuf b).filename = g.filename := rfl

@[simp]
theorem withBuf_packageNames (g : GeneratedFile) (b : List String) :
    (g.withBuf b).packageNames = g.packageNames := rfl

@[simp]
theorem withBuf_usedPackageNames (g : GeneratedFile) (b : List String) :
    (g.withBuf b).usedPackageNames = g.usedPackageNames := rfl

theorem QualifiedGoIdent_eq (g : GeneratedFile) (i : GoIdent) :
    QualifiedGoIdent freshPackageName g i
      = (qualified freshPackageName g i, registered freshPackageName g i) := rfl

theorem qualified_withBuf (g : GeneratedFile) (b : List String) (i : GoIdent) :
    qualified freshPackageName (g.withBuf b) i = qualified freshPackageName g i := by
  unfold qualified QualifiedGoIdent
  simp only [withBuf_goImportPath, withBuf_packageNames, withBuf_usedPackageNames]
  split
  · rfl
  · split <;> rfl

theorem registered_withBuf (g : GeneratedFile) (b : List String) (i : GoIdent) :
    registered freshPackageName (g.withBuf b) i
      = (registered freshPackageName g i).withBuf b := by
  unfold registered QualifiedGoIdent
  simp only [withBuf_goImportPath, withBuf_packageNames, withBuf_usedPackageNames]
  split
  · rfl
  · split <;> rfl

@[simp]
theorem registered_buf (g : GeneratedFile) (i : GoIdent) :
    (registered freshPackageName g i).buf = g.buf := by
  unfold registered QualifiedGoIdent
  split
  · rfl
  · split <;> rfl

@[simp]
theorem registered_goImportPath (g : GeneratedFile) (i : GoIdent) :
    (registered freshPackageName g i).goImportPath = g.goImportPath := by
  unfold registered QualifiedGoIdent
  split
  · rfl
  · split <;> rfl

@[simp]
theorem registered_filename (g : GeneratedFile) (i : GoIdent) :
    (registered freshPackageName g i).filename = g.filename := by
  unfold registered QualifiedGoIdent
  split
  · rfl
  · split <;> rfl

/-- A second qualification of the same identifier returns the same name. -/
theorem qualified_registered_self (g : GeneratedFile) (i : GoIdent) :
    qualified freshPackageName (registered freshPackageName g i) i
      = qualified freshPackageName g i := by
  unfold qualified registered QualifiedGoIdent
  by_cases h : i.GoImportPath = g.goImportPath
  · simp [h]
  · cases hl : g.packageNames.lookup i.GoImportPath with
    | some n => simp [h, hl]
    | none => simp [h, hl, List.lookup]

/-- A second qualification of the same identifier leaves the file as it is. -/
theorem registered_registered_self (g : GeneratedFile) (i : GoIdent) :
    registered freshPackageName (registered freshPackageName g i) i
      = registered freshPackageName g i := by
  unfold registered QualifiedGoIdent
  by_cases h : i.GoImportPath = g.goImportPath
  · simp [h]
  · cases hl : g.packageNames.lookup i.GoImportPath with
    | some n => simp [h, hl]
    | none => simp [h, hl, List.lookup]

theorem P_eq (g : GeneratedFile) (v : List PArg) :
    P freshPackageName g v
      = (printArgs freshPackageName g "" v).2.withBuf
          ((printArgs freshPackageName g "" v).2.buf
            ++ [(printArgs freshPackageName g "" v).1]) := rfl

@[simp]
theorem empty_append_string (s : String) : "" ++ s = s := by
  apply String.ext
  simp

/-- The closed form of one run of the template: the file gains the imports of
`sync.Pool` and of the message type, and its lines grow by `poolBlock`. -/
theorem generateMessagePool_eq (g : GeneratedFile) (m : Message) :
    generateMessagePool freshPackageName g m
      = (registered freshPackageName (registered freshPackageName g poolIndent)
            m.GoIdent).withBuf
          (g.buf ++ poolBlock m.Name
            (qualified freshPackageName (registered freshPackageName g poolIndent) m.GoIdent)
            (qualified freshPackageName g poolIndent)) := by
  unfold generateMessagePool poolBlock
  simp only [P_eq, printArgs, QualifiedGoIdent_eq, qualified_withBuf, registered_withBuf,
    registered_buf, withBuf_buf, withBuf_withBuf, qualified_registered_self,
    registered_registered_self, empty_append_string, List.append_assoc, List.singleton_append,
    List.cons_append, List.nil_append]

/-! ## Import bookkeeping is monotone -/

theorem extends_refl (g : GeneratedFile) : Extends g g := ⟨rfl, fun _ _ h => h⟩

theorem extends_trans {a b c : GeneratedFile} (h₁ : Extends a b) (h₂ : Extends b c) :
    Extends a c :=
  ⟨h₂.1.trans h₁.1, fun p n h => h₂.2 p n (h₁.2 p n h)⟩

theorem extends_withBuf {a b : GeneratedFile} (h : Extends a b) (l : List String) :
    Extends a (b.withBuf l) := h

theorem extends_registered (g : GeneratedFile) (i : GoIdent) :
    Extends g (registered freshPackageName g i) := by
  unfold registered QualifiedGoIdent
  by_cases h : i.GoImportPath = g.goImportPath
  · simp only [h, if_true]; exact extends_refl g
  · cases hl : g.packageNames.lookup i.GoImportPath with
    | some n => simp only [h, if_false]; exact extends_refl g
    | none =>
      simp only [h, if_false]
      refine ⟨rfl, fun p n hp => ?_⟩
      have hne : p ≠ i.GoImportPath := by
        intro e
        rw [e, hl] at hp
        exact absurd hp (by simp)
      have hb : (p == i.GoImportPath) = false := by simpa using hne
      show List.lookup p ((i.GoImportPath, _) :: g.packageNames) = some n
      rw [List.lookup_cons, hb]
      exact hp

theorem known_registered (g : GeneratedFile) (i : GoIdent) :
    Known (registered freshPackageName g i) i := by
  unfold Known registered QualifiedGoIdent
  by_cases h : i.GoImportPath = g.goImportPath
  · left; simp [h]
  · cases hl : g.packageNames.lookup i.GoImportPath with
    | some n => right; exact ⟨n, by simp [h, hl]⟩
    | none => right; exact ⟨freshPackageName g.usedPackageNames i.GoImportPath, by simp [h]⟩

/-- Once an identifier is known, its qualified name never changes. -/
theorem qualified_stable {g g' : GeneratedFile} {i : GoIdent} (hk : Known g i)
    (he : Extends g g') :
    qualified freshPackageName g' i = qualified freshPackageName g i := by
  unfold qualified QualifiedGoIdent
  by_cases h : i.GoImportPath = g.goImportPath
  · have h' : i.GoImportPath = g'.goImportPath := h.trans he.1.symm
    rw [if_pos h', if_pos h]
  · have h' : ¬ i.GoImportPath = g'.goImportPath := fun e => h (e.trans he.1)
    rcases hk with hk | ⟨n, hn⟩
    · exact absurd hk h
    · simp [h, h', hn, he.2 _ _ hn]

theorem generateMessagePool_extends (g : GeneratedFile) (m : Message) :
    Extends g (generateMessagePool freshPackageName g m) := by
  rw [generateMessagePool_eq]
  exact extends_withBuf (extends_trans (extends_registered freshPackageName g poolIndent)
    (extends_registered freshPackageName _ m.GoIdent)) _

theorem foldl_generateMessagePool_extends (ms : List Message) (g : GeneratedFile) :
    Extends g (ms.foldl (generateMessagePool freshPackageName) g) := by
  induction ms generalizing g with
  | nil => exact extends_refl g
  | cons m ms ih =>
    exact extends_trans (generateMessagePool_extends freshPackageName g m) (ih _)

/-- The lines the loop of `GenerateFile` prints, with every qualified name read
off the final file state. -/
theorem foldl_generateMessagePool_buf (ms : List Message) (g : GeneratedFile) :
    (ms.foldl (generateMessagePool freshPackageName) g).buf
      = g.buf ++ ms.flatMap (fun m => poolBlock m.Name
          (qualified freshPackageName
            (ms.foldl (generateMessagePool freshPackageName) g) m.GoIdent)
          (qualified freshPackageName g poolIndent)) := by
  induction ms generalizing g with
  | nil => simp
  | cons m ms ih =>
    simp only [List.foldl_cons, List.flatMap_cons]
    rw [ih]
    have hg1 : Extends g (generateMessagePool freshPackageName g m) :=
      generateMessagePool_extends freshPackageName g m
    have hF := foldl_generateMessagePool_extends freshPackageName ms
      (generateMessagePool freshPackageName g m)
    -- the pool type keeps its name
    have hpool : qualified freshPackageName (generateMessagePool freshPackageName g m) poolIndent
        = qualified freshPackageName g poolIndent := by
      rw [generateMessagePool_eq, qualified_withBuf]
      rw [qualified_stable freshPackageName (known_registered freshPackageName g poolIndent)
        (extends_registered freshPackageName _ m.GoIdent)]
      exact qualified_registered_self freshPackageName g poolIndent
    -- the message type keeps the name of its first qualification
    have hk : Known (generateMessagePool freshPackageName g m) m.GoIdent := by
      rw [generateMessagePool_eq]
      exact known_registered freshPackageName _ m.GoIdent
    have hT : qualified freshPackageName
          (ms.foldl (generateMessagePool freshPackageName)
            (generateMessagePool freshPackageName g m)) m.GoIdent
        = qualified freshPackageName (registered freshPackageName g poolIndent) m.GoIdent := by
      rw [qualified_stable freshPackageName hk hF, generateMessagePool_eq, qualified_withBuf]
      exact qualified_registered_self freshPackageName _ m.GoIdent
    rw [hpool, hT]
    rw [generateMessagePool_eq]
    simp only [withBuf_buf, List.append_assoc]

theorem qualified_NewGeneratedFile_poolIndent (filename importPath : String) :
    qualified freshPackageName (NewGeneratedFile filename importPath) poolIndent
      = poolName freshPackageName importPath := by
  unfold qualified QualifiedGoIdent NewGeneratedFile poolName poolIndent
  by_cases h : "sync" = importPath
  · simp [h]
  · simp [h]

/-- The lines of a generated file in closed form. -/
theorem GenerateFile_buf (gen : Plugin) (file : File) :
    (GenerateFile freshPackageName gen file).2.buf
      = ["package " ++ file.GoPackageName, ""] ++
        file.Messages.flatMap (fun m => poolBlock m.Name
          (qualified freshPackageName (GenerateFile freshPackageName gen file).2 m.GoIdent)
          (poolName freshPackageName file.GoImportPath)) := by
  unfold GenerateFile
  simp only [P_eq, printArgs, empty_append_string]
  rw [foldl_generateMessagePool_buf]
  simp only [withBuf_buf, qualified_withBuf, withBuf_withBuf]
  rw [qualified_NewGeneratedFile_poolIndent]
  simp [NewGeneratedFile]

theorem GenerateFile_filename (gen : Plugin) (file : File) :
    (GenerateFile freshPackageName gen file).2.filename
      = file.GeneratedFilenamePrefix ++ ".pb.pool.go" := by
  unfold GenerateFile
  have h : ∀ (ms : List Message) (g : GeneratedFile),
      (ms.foldl (generateMessagePool freshPackageName) g).filename = g.filename := by
    intro ms
    induction ms with
    | nil => intro g; rfl
    | cons m ms ih =>
      intro g
      simp only [List.foldl_cons]
      rw [ih, generateMessagePool_eq]
      simp
  simp only [h, P_eq, printArgs, withBuf_filename]
  rfl

end Emit

/-! ## Reading the template's lines -/

theorem mem_of_isPrefixOf : ∀ (p l : List Char), p.isPrefixOf l = true → ∀ c ∈ p, c ∈ l
  | [], _, _, c, hc => absurd hc (List.not_mem_nil c)
  | _ :: _, [], h, _, _ => by simp [List.isPrefixOf] at h
  | a :: p, b :: l, h, c, hc => by
    simp only [List.isPrefixOf, Bool.and_eq_true, beq_iff_eq] at h
    rcases List.mem_cons.1 hc with rfl | hc
    · rw [h.1]; exact List.mem_cons_self _ _
    · exact List.mem_cons_of_mem _ (mem_of_isPrefixOf p l h.2 c hc)

theorem takeWhile_append_stop (q : Char → Bool) (a : List Char) (b : Char) (r : List Char)
    (ha : ∀ c ∈ a, q c = true) (hb : q b = false) :
    (a ++ b :: r).takeWhile q = a := by
  induction a with
  | nil => simp [List.takeWhile_cons, hb]
  | cons x a ih =>
    have hx : q x = true := ha x (List.mem_cons_self _ _)
    simp [List.takeWhile_cons, hx, ih (fun c hc => ha c (List.mem_cons_of_mem _ hc))]

theorem isLetterDigit_ne_space {c : Char} (h : isLetterDigit c = true) : c ≠ ' ' := by
  rintro rfl
  revert h
  decide

theorem isLetterDigit_ne_paren {c : Char} (h : isLetterDigit c = true) : c ≠ '(' := by
  rintro rfl
  revert h
  decide

theorem nameIsValid_all {s : String} (h : NameIsValid s = true) :
    ∀ c ∈ s.data, isLetterDigit c = true := by
  unfold NameIsValid at h
  cases hs : s.data with
  | nil => rw [hs] at h; simp at h
  | cons a cs =>
    rw [hs] at h
    simp only [Bool.and_eq_true, List.all_eq_true] at h
    intro c hc
    rcases List.mem_cons.1 hc with rfl | hc
    · simp [isLetterDigit, h.1]
    · exact h.2 c hc

theorem nameIsValid_no_space {s : String} (h : NameIsValid s = true) : ' ' ∉ s.data :=
  fun hc => isLetterDigit_ne_space (nameIsValid_all h _ hc) rfl

theorem nameIsValid_no_paren {s : String} (h : NameIsValid s = true) : '(' ∉ s.data :=
  fun hc => isLetterDigit_ne_paren (nameIsValid_all h _ hc) rfl

theorem declaration_var (s rest : String) (h : ' ' ∉ s.data) :
    declaration ("var " ++ s ++ "Pool = &" ++ rest) = some (.var (s ++ "Pool")) := by
  have hq : ∀ c ∈ s.data ++ ['P', 'o', 'o', 'l'], (c != ' ') = true := by
    intro c hc
    rcases List.mem_append.1 hc with hc | hc
    · simpa using fun e : c = ' ' => h (e ▸ hc)
    · simp only [List.mem_cons, List.mem_singleton, List.not_mem_nil, or_false] at hc
      rcases hc with rfl | rfl | rfl | rfl <;> decide
  have hw := takeWhile_append_stop (· != ' ') _ ' ' ('=' :: ' ' :: '&' :: rest.data) hq
    (by decide)
  have h1 : startsWith "var " ("var " ++ s ++ "Pool = &" ++ rest) = true := by
    simp [startsWith, String.data_append, List.isPrefixOf]
  unfold declaration
  rw [if_pos h1]
  congr 2
  apply String.ext
  simp only [String.data_append, List.append_assoc] at hw ⊢
  simpa using hw

theorem declaration_func (name rest : String) (h : '(' ∉ name.data) :
    declaration ("func " ++ name ++ "(" ++ rest) = some (.func name) := by
  have hq : ∀ c ∈ name.data, (c != '(') = true := by
    intro c hc
    simpa using fun e : c = '(' => h (e ▸ hc)
  have hw := takeWhile_append_stop (· != '(') _ '(' rest.data hq (by decide)
  have h0 : startsWith "var " ("func " ++ name ++ "(" ++ rest) = false := by
    simp [startsWith, String.data_append, List.isPrefixOf]
  have h1 : startsWith "func " ("func " ++ name ++ "(" ++ rest) = true := by
    simp [startsWith, String.data_append, List.isPrefixOf]
  unfold declaration
  rw [if_neg (by simp [h0]), if_pos h1]
  congr 2
  apply String.ext
  simp only [String.data_append, List.append_assoc] at hw ⊢
  simpa using hw

theorem declaration_none {line : String} (h0 : startsWith "var " line = false)
    (h1 : startsWith "func " line = false) : declaration line = none := by
  unfold declaration
  rw [if_neg (by simp [h0]), if_neg (by simp [h1])]

/-- A line without a blank opens no declaration. -/
theorem declaration_no_space {line : String} (h : ' ' ∉ line.data) :
    declaration line = none := by
  apply declaration_none
  · cases hs : startsWith "var " line with
    | false => rfl
    | true => exact absurd (mem_of_isPrefixOf _ _ hs ' ' (by decide)) h
  · cases hs : startsWith "func " line with
    | false => rfl
    | true => exact absurd (mem_of_isPrefixOf _ _ hs ' ' (by decide)) h

/-- The declarations of one block of the template. -/
theorem declarations_poolBlock (s T pool : String) (hs : NameIsValid s = true) :
    declarations (poolBlock s T pool) = poolDecls s := by
  have hsp := nameIsValid_no_space hs
  have hpa := nameIsValid_no_paren hs
  have e2 : "var " ++ s ++ "Pool = &" ++ pool ++ "\x7b"
      = "var " ++ s ++ "Pool = &" ++ (pool ++ "\x7b") := by
    apply String.ext; simp [String.data_append]
  have e9 : "func Get" ++ s ++ "() *" ++ T ++ " \x7b"
      = "func " ++ ("Get" ++ s) ++ "(" ++ (") *" ++ T ++ " \x7b") := by
    apply String.ext; simp [String.data_append]
  have e14 : "func Put" ++ s ++ "(m *" ++ T ++ ") \x7b"
      = "func " ++ ("Put" ++ s) ++ "(" ++ ("m *" ++ T ++ ") \x7b") := by
    apply String.ext; simp [String.data_append]
  have d2 := declaration_var s (pool ++ "\x7b") hsp
  have d9 := declaration_func ("Get" ++ s) (") *" ++ T ++ " \x7b")
    (by simpa [String.data_append] using hpa)
  have d14 := declaration_func ("Put" ++ s) ("m *" ++ T ++ ") \x7b")
    (by simpa [String.data_append] using hpa)
  have d17 : declaration (s ++ "Pool.Put(m)") = none :=
    declaration_no_space (by simpa [String.data_append] using hsp)
  have n : ∀ (a rest : String), (a = "// " ∨ a = "return " ∨ a = "return &" ∨ a = "// Get"
      ∨ a = "// Put") → declaration (a ++ rest) = none := by
    intro a rest ha
    apply declaration_none <;>
      rcases ha with rfl | rfl | rfl | rfl | rfl <;>
      simp [startsWith, String.data_append, List.isPrefixOf]
  have n1 := n "// " (s ++ "Pool is a sync.Pool for " ++ s) (by simp)
  have n4 := n "return &" (T ++ "\x7b\x7d") (by simp)
  have n8 := n "// Get" (s ++ " gets a " ++ s ++ " from the pool") (by simp)
  have n10 := n "return " (s ++ "Pool.Get().(*" ++ T ++ ")") (by simp)
  have n13 := n "// Put" (s ++ " puts a " ++ s ++ " back to the pool") (by simp)
  simp only [← String.append_assoc] at n1 n4 n8 n10 n13
  have c3 : declaration "New: func() interface\x7b\x7d \x7b" = none := by decide
  have c5 : declaration "\x7d," = none := by decide
  have c6 : declaration "\x7d" = none := by decide
  have c7 : declaration "" = none := by decide
  have c15 : declaration "// Reset the message before putting it back to the pool" = none := by
    decide
  have c16 : declaration "m.Reset()" = none := by decide
  rw [← e2] at d2
  rw [← e9] at d9
  rw [← e14] at d14
  unfold declarations poolBlock poolDecls
  simp only [List.filterMap_cons, List.filterMap_nil, n1, d2, c3, n4, c5, c6, c7, n8, d9, n10,
    n13, d14, c15, c16, d17]

theorem ne_of_length_ne {a b : String} (h : a.data.length ≠ b.data.length) : a ≠ b :=
  fun e => h (by rw [e])

/-- The body of `Put` in one block of the template. -/
theorem funcBody_put_poolBlock (s T pool : String) :
    funcBody ("Put" ++ s) (poolBlock s T pool)
      = [ "// Reset the message before putting it back to the pool",
          "m.Reset()",
          s ++ "Pool.Put(m)" ] := by
  have hrel : s ++ "Pool.Put(m)" ≠ "\x7d" :=
    ne_of_length_ne (by simp [String.data_append])
  unfold funcBody bodyAfter poolBlock
  simp [startsWith, String.data_append, List.isPrefixOf, List.dropWhile_cons,
    List.takeWhile_cons, hrel]

/-- The body of `Get` in one block of the template. -/
theorem funcBody_get_poolBlock (s T pool : String) :
    funcBody ("Get" ++ s) (poolBlock s T pool)
      = [ "return " ++ s ++ "Pool.Get().(*" ++ T ++ ")" ] := by
  have hret : "return " ++ s ++ "Pool.Get().(*" ++ T ++ ")" ≠ "\x7d" :=
    ne_of_length_ne (by simp [String.data_append])
  unfold funcBody bodyAfter poolBlock
  simp [startsWith, String.data_append, List.isPrefixOf, List.dropWhile_cons,
    List.takeWhile_cons, hret]

/-- The body of the `New` factory in one block of the template. -/
theorem factoryBody_poolBlock (s T pool : String) :
    factoryBody (poolBlock s T pool) = [ "return &" ++ T ++ "\x7b\x7d" ] := by
  have h1 : "// " ++ s ++ "Pool is a sync.Pool for " ++ s ≠ "New: func() interface\x7b\x7d \x7b" := by
    intro e
    have := congrArg String.data e
    simp [String.data_append] at this
  have h2 : "var " ++ s ++ "Pool = &" ++ pool ++ "\x7b" ≠ "New: func() interface\x7b\x7d \x7b" := by
    intro e
    have := congrArg String.data e
    simp [String.data_append] at this
  have h3 : "return &" ++ T ++ "\x7b\x7d" ≠ "\x7d," := by
    intro e
    have := congrArg String.data e
    simp [String.data_append] at this
  unfold factoryBody bodyAfter poolBlock
  simp [List.dropWhile_cons, List.takeWhile_cons, h1, h2, h3]

/-- The lines one run of the template appends. -/
theorem generateMessagePool_block (freshPackageName : List String → String → String)
    (g : GeneratedFile) (m : Message) :
    (generateMessagePool freshPackageName g m).buf.drop g.buf.length
      = poolBlock m.Name
          (qualified freshPackageName (registered freshPackageName g poolIndent) m.GoIdent)
          (qualified freshPackageName g poolIndent) := by
  rw [generateMessagePool_eq, withBuf_buf, List.drop_left]

theorem declarations_append (a b : List String) :
    declarations (a ++ b) = declarations a ++ declarations b := by
  simp [declarations, List.filterMap_append]

theorem declarations_flatMap (ms : List Message) (f : Message → List String) :
    declarations (ms.flatMap f) = ms.flatMap (fun m => declarations (f m)) := by
  induction ms with
  | nil => rfl
  | cons m ms ih => simp [List.flatMap_cons, declarations_append, ih]

theorem declarations_header (pkg : String) :
    declarations ["package " ++ pkg, ""] = [] := by
  have h : declaration ("package " ++ pkg) = none := by
    apply declaration_none <;> simp [startsWith, String.data_append, List.isPrefixOf]
  have h0 : declaration "" = none := by decide
  simp [declarations, h, h0]

/-- The declarations of a generated file whose messages have valid names. -/
theorem declarations_GenerateFile (freshPackageName : List String → String → String)
    (gen : Plugin) (file : File) (hv : ∀ m ∈ file.Messages, NameIsValid m.Name = true) :
    declarations (GenerateFile freshPackageName gen file).2.buf
      = file.Messages.flatMap (fun m => poolDecls m.Name) := by
  rw [GenerateFile_buf, declarations_append, declarations_header, List.nil_append,
    declarations_flatMap]
  generalize (GenerateFile freshPackageName gen file).2 = g
  revert hv
  generalize file.Messages = ms
  intro hv
  induction ms with
  | nil => rfl
  | cons m ms ih =>
    simp only [List.flatMap_cons]
    rw [declarations_poolBlock _ _ _ (hv m (List.mem_cons_self _ _)),
      ih (fun x hx => hv x (List.mem_cons_of_mem _ hx))]

theorem generateMessagePool_withoutNested (freshPackageName : List String → String → String)
    (g : GeneratedFile) (m : Message) :
    generateMessagePool freshPackageName g m.withoutNested
      = generateMessagePool freshPackageName g m := by
  cases m
  rfl

theorem foldl_callback_genFiles (freshPackageName : List String → String → String)
    (gen0 : Plugin) (fs : List File) (gen : Plugin) :
    (fs.foldl (fun gen f =>
        if f.Generate then (GenerateFile freshPackageName gen f).1 else gen) gen).genFiles
      = gen.genFiles ++ (fs.filter (·.Generate)).map
          (fun f => (GenerateFile freshPackageName gen0 f).2) := by
  induction fs generalizing gen with
  | nil => simp
  | cons f fs ih =>
    simp only [List.foldl_cons]
    rw [ih]
    cases hf : f.Generate with
    | false => simp [List.filter_cons, hf]
    | true =>
      simp only [List.filter_cons, hf, if_true, List.map_cons]
      simp [GenerateFile]

theorem responseFiles_all_or_nothing (content : GeneratedFile → Except String String)
    (gs : List GeneratedFile) (acc : List (String × String)) :
    ((responseFiles content gs acc).error ≠ none ∧ (responseFiles content gs acc).files = [])
      ∨ ((responseFiles content gs acc).error = none
          ∧ (responseFiles content gs acc).files.map Prod.fst
              = acc.map Prod.fst ++ gs.map (·.filename)) := by
  induction gs generalizing acc with
  | nil => right; simp [responseFiles]
  | cons g gs ih =>
    unfold responseFiles
    cases hc : content g with
    | error e => left; simp
    | ok c =>
      simp only
      rcases ih (acc ++ [(g.filename, c)]) with h | h
      · exact Or.inl h
      · exact Or.inr ⟨h.1, by rw [h.2]; simp⟩

theorem flatMap_pairs (ms : List Message) (q : Message → String) (pool : String) :
    ms.flatMap (fun m => poolBlock m.Name (q m) pool)
      = (ms.map (fun m => (m.Name, q m))).flatMap (fun p => poolBlock p.1 p.2 pool) := by
  induction ms with
  | nil => rfl
  | cons m ms ih => simp [List.flatMap_cons, ih]

theorem declaredIdents_GenerateFile (freshPackageName : List String → String → String)
    (gen : Plugin) (file : File) (hv : ∀ m ∈ file.Messages, NameIsValid m.Name = true) :
    declaredIdents (GenerateFile freshPackageName gen file).2.buf
      = (file.Messages.map Message.Name).flatMap poolIdents := by
  unfold declaredIdents
  rw [declarations_GenerateFile freshPackageName gen file hv, List.map_flatMap,
    List.flatMap_map]
  rfl

theorem append_Pool_inj {s t : String} (h : s ++ "Pool" = t ++ "Pool") : s = t := by
  have := congrArg String.data h
  simp only [String.data_append, List.append_cancel_right_eq] at this
  exact String.ext this

theorem Get_append_inj {s t : String} (h : "Get" ++ s = "Get" ++ t) : s = t := by
  have := congrArg String.data h
  simp only [String.data_append, List.append_cancel_left_eq] at this
  exact String.ext this

theorem Put_append_inj {s t : String} (h : "Put" ++ s = "Put" ++ t) : s = t := by
  have := congrArg String.data h
  simp only [String.data_append, List.append_cancel_left_eq] at this
  exact String.ext this

theorem Get_ne_Put (s t : String) : "Get" ++ s ≠ "Put" ++ t := by
  intro h
  have := congrArg String.data h
  simp [String.data_append] at this

/-- For pairwise distinct short names, the identifiers of the template are pairwise
distinct exactly when no pool variable has the name of an accessor. -/
theorem nodup_poolIdents_iff (names : List String) (hd : names.Nodup) :
    (names.flatMap poolIdents).Nodup
      ↔ ∀ s ∈ names, ∀ t ∈ names, s ++ "Pool" ≠ "Get" ++ t ∧ s ++ "Pool" ≠ "Put" ++ t := by
  rw [List.nodup_flatMap]
  constructor
  · rintro ⟨h1, h2⟩ s hs t ht
    by_cases e : s = t
    · subst e
      have := h1 s hs
      simp only [poolIdents, List.nodup_cons, List.mem_cons, List.mem_singleton,
        List.not_mem_nil, or_false, not_or, List.nodup_nil, and_true] at this
      exact this.1
    · have hsym : Symmetric (Function.onFun List.Disjoint poolIdents) :=
        fun a b h => List.Disjoint.symm h
      have hdis : List.Disjoint (poolIdents s) (poolIdents t) := h2.forall hsym hs ht e
      have hmem : s ++ "Pool" ∈ poolIdents s := by simp [poolIdents]
      refine ⟨fun h => hdis hmem ?_, fun h => hdis hmem ?_⟩
      · rw [h]; simp [poolIdents]
      · rw [h]; simp [poolIdents]
  · intro hC
    refine ⟨fun s hs => ?_, hd.pairwise_of_forall_ne fun a ha b hb hab => ?_⟩
    · simp only [poolIdents, List.nodup_cons, List.mem_cons, List.mem_singleton,
        List.not_mem_nil, or_false, not_or, List.nodup_nil, and_true, not_false_eq_true]
      exact ⟨hC s hs s hs, Get_ne_Put s s⟩
    · show List.Disjoint (poolIdents a) (poolIdents b)
      intro x hxa hxb
      simp only [poolIdents, List.mem_cons, List.mem_singleton, List.not_mem_nil,
        or_false] at hxa hxb
      rcases hxa with rfl | rfl | rfl <;> rcases hxb with h | h | h
      · exact hab (append_Pool_inj h)
      · exact (hC a ha b hb).1 h
      · exact (hC a ha b hb).2 h
      · exact (hC b hb a ha).1 h.symm
      · exact hab (Get_append_inj h)
      · exact Get_ne_Put a b h
      · exact (hC b hb a ha).2 h.symm
      · exact Get_ne_Put b a h.symm
      · exact hab (Put_append_inj h)

theorem ne_sync_of_valid {p : String} (h : GoImportPathIsValid p = true) : "sync" ≠ p := by
  rintro rfl
  revert h
  decide

/-- In a file whose import path `protogen` accepts, the pool type is qualified. -/
theorem poolName_of_valid (freshPackageName : List String → String → String) {p : String}
    (h : GoImportPathIsValid p = true) :
    poolName freshPackageName p = freshPackageName [] "sync" ++ "." ++ "Pool" := by
  unfold poolName
  rw [if_neg (ne_sync_of_valid h)]

/-- The lines and the name of a generated file depend on the package name, the prefix, the
name of the pool type and the pairs of short name and qualified type only. -/
theorem GenerateFile_congr (freshPackageName : List String → String → String)
    (gen gen' : Plugin) (file file' : File)
    (hpkg : file.GoPackageName = file'.GoPackageName)
    (hpre : file.GeneratedFilenamePrefix = file'.GeneratedFilenamePrefix)
    (hpool : poolName freshPackageName file.GoImportPath
      = poolName freshPackageName file'.GoImportPath)
    (hmsgs : file.Messages.map (fun m => (m.Name, qualified freshPackageName
          (GenerateFile freshPackageName gen file).2 m.GoIdent))
        = file'.Messages.map (fun m => (m.Name, qualified freshPackageName
          (GenerateFile freshPackageName gen' file').2 m.GoIdent))) :
    (GenerateFile freshPackageName gen file).2.filename
        = (GenerateFile freshPackageName gen' file').2.filename
      ∧ (GenerateFile freshPackageName gen file).2.buf
        = (GenerateFile freshPackageName gen' file').2.buf := by
  refine ⟨?_, ?_⟩
  · rw [GenerateFile_filename, GenerateFile_filename, hpre]
  · rw [GenerateFile_buf freshPackageName gen file, GenerateFile_buf freshPackageName gen' file',
      flatMap_pairs, flatMap_pairs, hmsgs, hpkg, hpool]

/-- A short name that does not begin with `Get` or `Put` gives a pool variable that is
no accessor name. -/
theorem no_clash_of_no_accessor_start (s t : String)
    (hG : startsWith "Get" s = false) (hP : startsWith "Put" s = false) :
    s ++ "Pool" ≠ "Get" ++ t ∧ s ++ "Pool" ≠ "Put" ++ t := by
  unfold startsWith at hG hP
  constructor
  · intro h
    have hd := congrArg String.data h
    simp only [String.data_append] at hd
    rcases hs : s.data with _ | ⟨a, _ | ⟨b, _ | ⟨c, r⟩⟩⟩ <;> rw [hs] at hd hG <;>
      simp [List.isPrefixOf] at hd hG
    exact hG hd.1.symm hd.2.1.symm hd.2.2.1.symm
  · intro h
    have hd := congrArg String.data h
    simp only [String.data_append] at hd
    rcases hs : s.data with _ | ⟨a, _ | ⟨b, _ | ⟨c, r⟩⟩⟩ <;> rw [hs] at hd hP <;>
      simp [List.isPrefixOf] at hd hP
    exact hP hd.1.symm hd.2.1.symm hd.2.2.1.symm

/-! ## The claims -/

/-- C1: the lines `GenerateFile` emits are the line `package <GoPackageName>`, one empty
line, then the blocks of `generateMessagePool` for the top-level messages in declaration
order (`poolBlock` is the block one run of `generateMessagePool` appends); when the short
names are valid identifiers, the declarations of the file are, message by message, the
variable `<s>Pool`, the function `Get<s>` and the function `Put<s>`, and nothing else. -/
theorem C1_lines_of_GenerateFile (freshPackageName : List String → String → String)
    (gen : Plugin) (file : File) :
    (GenerateFile freshPackageName gen file).2.buf
        = ["package " ++ file.GoPackageName, ""] ++
          file.Messages.flatMap (fun m => poolBlock m.Name
            (qualified freshPackageName (GenerateFile freshPackageName gen file).2 m.GoIdent)
            (poolName freshPackageName file.GoImportPath))
      ∧ (∀ (g : GeneratedFile) (m : Message),
          (generateMessagePool freshPackageName g m).buf
            = g.buf ++ poolBlock m.Name
                (qualified freshPackageName (registered freshPackageName g poolIndent) m.GoIdent)
                (qualified freshPackageName g poolIndent))
      ∧ ((∀ m ∈ file.Messages, NameIsValid m.Name = true) →
          declarations (GenerateFile freshPackageName gen file).2.buf
            = file.Messages.flatMap (fun m =>
                [Decl.var (m.Name ++ "Pool"), Decl.func ("Get" ++ m.Name),
                  Decl.func ("Put" ++ m.Name)])) := by
  refine ⟨GenerateFile_buf freshPackageName gen file, ?_, ?_⟩
  · intro g m
    rw [generateMessagePool_eq, withBuf_buf]
  · intro hv
    exact declarations_GenerateFile freshPackageName gen file hv

/-- C1 on the file of the integration test: the two messages have valid names, and the
generated file declares the six identifiers the test looks for, in order. -/
theorem C1_lines_of_GenerateFile_witness :
    (∀ m ∈ testFile.Messages, NameIsValid m.Name = true) ∧
    declarations (GenerateFile examplePackageName (pluginOf [testFile] false) testFile).2.buf
      = [ Decl.var "TestMessagePool", Decl.func "GetTestMessage", Decl.func "PutTestMessage",
          Decl.var "AnotherMessagePool", Decl.func "GetAnotherMessage",
          Decl.func "PutAnotherMessage" ] :=
  ⟨by decide,
    (C1_lines_of_GenerateFile examplePackageName (pluginOf [testFile] false) testFile).2.2
      (by decide)⟩

/-- C2: in the block emitted for a message with short name `s`, the body of `Put<s>` holds
`m.Reset()` exactly once and `<s>Pool.Put(m)` exactly once, the reset stands strictly before
the release, and no release stands before the reset. -/
theorem C2_put_resets_before_release (freshPackageName : List String → String → String)
    (g : GeneratedFile) (m : Message) :
    let body := funcBody ("Put" ++ m.Name)
      ((generateMessagePool freshPackageName g m).buf.drop g.buf.length)
    body.count "m.Reset()" = 1
      ∧ body.count (m.Name ++ "Pool.Put(m)") = 1
      ∧ body.indexOf "m.Reset()" < body.indexOf (m.Name ++ "Pool.Put(m)")
      ∧ body.indexOf (m.Name ++ "Pool.Put(m)") < body.length
      ∧ m.Name ++ "Pool.Put(m)" ∉ body.takeWhile (· != "m.Reset()") := by
  intro body
  have hb : body = [ "// Reset the message before putting it back to the pool",
      "m.Reset()", m.Name ++ "Pool.Put(m)" ] := by
    show funcBody _ _ = _
    rw [generateMessagePool_block, funcBody_put_poolBlock]
  have h1 : m.Name ++ "Pool.Put(m)" ≠ "m.Reset()" :=
    ne_of_length_ne (by simp [String.data_append])
  have h2 : m.Name ++ "Pool.Put(m)"
      ≠ "// Reset the message before putting it back to the pool" := by
    intro e
    have := congrArg (fun x => x.data.getLast?) e
    simp [String.data_append] at this
  have h3 : ("// Reset the message before putting it back to the pool" : String)
      ≠ "m.Reset()" := by decide
  rw [hb]
  refine ⟨?_, ?_, ?_, ?_, ?_⟩
  · simp [List.count_cons, h1, h3]
  · simp [List.count_cons, h1.symm, h2.symm]
  · simp [List.indexOf_cons, h1.symm, h2.symm, h3]
  · simp [List.indexOf_cons, h1.symm, h2.symm, h3]
  · simp [List.takeWhile_cons, h2, h3]

/-- C3: in the block emitted for a message with short name `s` and qualified Go type `T`,
the body of `Get<s>` is the single statement `return <s>Pool.Get().(*T)`; the factory of
the pool returns `&T\x7b\x7d`, `Get<s>` returns `*T` and `Put<s>` takes `m *T` for the same
`T`; the variable declared is `<s>Pool`, the one `Get<s>` and `Put<s>` use. -/
theorem C3_get_returns_pooled_type (freshPackageName : List String → String → String)
    (g : GeneratedFile) (m : Message) :
    let block := (generateMessagePool freshPackageName g m).buf.drop g.buf.length
    let T := qualified freshPackageName (registered freshPackageName g poolIndent) m.GoIdent
    funcBody ("Get" ++ m.Name) block = ["return " ++ m.Name ++ "Pool.Get().(*" ++ T ++ ")"]
      ∧ factoryBody block = ["return &" ++ T ++ "\x7b\x7d"]
      ∧ "func Get" ++ m.Name ++ "() *" ++ T ++ " \x7b" ∈ block
      ∧ "func Put" ++ m.Name ++ "(m *" ++ T ++ ") \x7b" ∈ block
      ∧ "var " ++ m.Name ++ "Pool = &" ++ qualified freshPackageName g poolIndent ++ "\x7b"
          ∈ block
      ∧ m.Name ++ "Pool.Put(m)" ∈ funcBody ("Put" ++ m.Name) block := by
  intro block T
  have hb : block = poolBlock m.Name T (qualified freshPackageName g poolIndent) :=
    generateMessagePool_block freshPackageName g m
  rw [hb]
  refine ⟨funcBody_get_poolBlock _ _ _, factoryBody_poolBlock _ _ _, ?_, ?_, ?_, ?_⟩
  · simp [poolBlock]
  · simp [poolBlock]
  · simp [poolBlock]
  · rw [funcBody_put_poolBlock]; simp

/-- C4, as stated, fails: in `nestedFile` the message `Inner` is declared inside `Outer`,
so the flattened sequence of the specification holds `Outer` and `Inner`, but the generated
file declares a pool for `Outer` only. -/
theorem C4_counterexample :
    (flattenMessages nestedFile.Messages).map Message.Name = ["Outer", "Inner"]
      ∧ declarations
          (GenerateFile examplePackageName (pluginOf [nestedFile] false) nestedFile).2.buf
          = [Decl.var "OuterPool", Decl.func "GetOuter", Decl.func "PutOuter"]
      ∧ ¬ (∀ m ∈ flattenMessages nestedFile.Messages,
            Decl.var (m.Name ++ "Pool") ∈ declarations
              (GenerateFile examplePackageName (pluginOf [nestedFile] false) nestedFile).2.buf) := by
  decide

/-- C4, amended: only the top-level messages of a file get a pool block, in declaration
order and named from their own short name; the messages declared inside another message
get none, the generated file being the one of the same file with every nested declaration
removed. -/
theorem C4_top_level_messages_only (freshPackageName : List String → String → String)
    (gen : Plugin) (file : File) :
    (GenerateFile freshPackageName gen
        { file with Messages := file.Messages.map Message.withoutNested }).2
        = (GenerateFile freshPackageName gen file).2
      ∧ ((∀ m ∈ file.Messages, NameIsValid m.Name = true) →
          declarations (GenerateFile freshPackageName gen file).2.buf
            = file.Messages.flatMap (fun m => poolDecls m.Name)) := by
  refine ⟨?_, declarations_GenerateFile freshPackageName gen file⟩
  unfold GenerateFile
  simp only [List.foldl_map, generateMessagePool_withoutNested]

/-- C4, amended, on `nestedFile`: its only top-level message has a valid name and the
generated file declares the pool of `Outer` and nothing for `Inner`. -/
theorem C4_top_level_messages_only_witness :
    (∀ m ∈ nestedFile.Messages, NameIsValid m.Name = true) ∧
    declarations (GenerateFile examplePackageName (pluginOf [nestedFile] false) nestedFile).2.buf
      = [Decl.var "OuterPool", Decl.func "GetOuter", Decl.func "PutOuter"] :=
  ⟨by decide,
    (C4_top_level_messages_only examplePackageName (pluginOf [nestedFile] false) nestedFile).2
      (by decide)⟩

/-- C6, as stated, fails: for the message declared as `test_message` the pool allocates
the Go type `TestMessage`, yet the variable is `test_messagePool` and the accessors are
`Gettest_message` and `Puttest_message`; no `TestMessagePool` is declared. -/
theorem C6_counterexample :
    factoryBody (generateMessagePool examplePackageName
        (NewGeneratedFile "t.pb.pool.go" "./test") snakeMessage).buf
        = ["return &TestMessage\x7b\x7d"]
      ∧ declarations (generateMessagePool examplePackageName
          (NewGeneratedFile "t.pb.pool.go" "./test") snakeMessage).buf
          = [Decl.var "test_messagePool", Decl.func "Gettest_message",
              Decl.func "Puttest_message"]
      ∧ Decl.var "TestMessagePool" ∉ declarations (generateMessagePool examplePackageName
          (NewGeneratedFile "t.pb.pool.go" "./test") snakeMessage).buf := by
  decide

/-- C6, amended: the pool variable and the accessors are named from the declared short
name `s` of the message (`<s>Pool`, `Get<s>`, `Put<s>`), whereas the type the pool
allocates and `Get<s>` returns is the qualified Go identifier `T` of the message; the
identifiers are formed from `T` exactly when `T` is `s`. -/
theorem C6_identifiers_from_short_name (freshPackageName : List String → String → String)
    (g : GeneratedFile) (m : Message) (hv : NameIsValid m.Name = true) :
    let block := (generateMessagePool freshPackageName g m).buf.drop g.buf.length
    let T := qualified freshPackageName (registered freshPackageName g poolIndent) m.GoIdent
    declarations block
        = [Decl.var (m.Name ++ "Pool"), Decl.func ("Get" ++ m.Name), Decl.func ("Put" ++ m.Name)]
      ∧ factoryBody block = ["return &" ++ T ++ "\x7b\x7d"]
      ∧ (declarations block
          = [Decl.var (T ++ "Pool"), Decl.func ("Get" ++ T), Decl.func ("Put" ++ T)]
          ↔ T = m.Name)
      ∧ "func Get" ++ m.Name ++ "() *" ++ T ++ " \x7b" ∈ block
      ∧ funcBody ("Get" ++ m.Name) block
          = ["return " ++ m.Name ++ "Pool.Get().(*" ++ T ++ ")"] := by
  intro block T
  have hb : block = poolBlock m.Name T (qualified freshPackageName g poolIndent) :=
    generateMessagePool_block freshPackageName g m
  have hd : declarations block
      = [Decl.var (m.Name ++ "Pool"), Decl.func ("Get" ++ m.Name), Decl.func ("Put" ++ m.Name)] := by
    rw [hb]
    exact declarations_poolBlock _ _ _ hv
  refine ⟨hd, by rw [hb]; exact factoryBody_poolBlock _ _ _, ?_,
    by rw [hb]; simp [poolBlock], by rw [hb]; exact funcBody_get_poolBlock _ _ _⟩
  rw [hd]
  constructor
  · intro h
    have h1 : "Get" ++ m.Name = "Get" ++ T := by
      have := (List.cons.inj (List.cons.inj h).2).1
      exact Decl.func.inj this
    have := congrArg String.data h1
    simp only [String.data_append, List.append_cancel_left_eq] at this
    exact (String.ext this).symm
  · intro h
    rw [h]

/-- C6, amended, on the message `TestMessage` of the integration test, whose Go type has
the name the message was declared with. -/
theorem C6_identifiers_from_short_name_witness :
    NameIsValid "TestMessage" = true ∧
    declarations ((generateMessagePool examplePackageName
        (NewGeneratedFile "test.pb.pool.go" "./test")
        (Message.mk "TestMessage" ⟨"TestMessage", "./test"⟩ ["name", "id"] [])).buf.drop 0)
      = [Decl.var "TestMessagePool", Decl.func "GetTestMessage", Decl.func "PutTestMessage"] :=
  ⟨by decide,
    (C6_identifiers_from_short_name examplePackageName
      (NewGeneratedFile "test.pb.pool.go" "./test")
      (Message.mk "TestMessage" ⟨"TestMessage", "./test"⟩ ["name", "id"] []) (by decide)).1⟩

/-- C7: the name of the generated file is the generated-filename prefix of the input file
followed by `.pb.pool.go`; it depends on nothing else, so two files get the same output
name exactly when their prefixes are equal; the prefix `test` of `test.proto` gives
`test.pb.pool.go`. -/
theorem C7_output_file_name (freshPackageName : List String → String → String)
    (gen : Plugin) (file : File) :
    (GenerateFile freshPackageName gen file).2.filename
        = file.GeneratedFilenamePrefix ++ ".pb.pool.go"
      ∧ (∀ (fresh' : List String → String → String) (gen' : Plugin) (file' : File),
          (GenerateFile fresh' gen' file').2.filename
              = (GenerateFile freshPackageName gen file).2.filename
            ↔ file'.GeneratedFilenamePrefix = file.GeneratedFilenamePrefix)
      ∧ (GenerateFile freshPackageName gen testFile).2.filename = "test.pb.pool.go" := by
  refine ⟨GenerateFile_filename freshPackageName gen file, ?_, ?_⟩
  · intro fresh' gen' file'
    rw [GenerateFile_filename, GenerateFile_filename]
    constructor
    · intro h
      have := congrArg String.data h
      simp only [String.data_append, List.append_cancel_right_eq] at this
      exact String.ext this
    · intro h
      rw [h]
  · rw [GenerateFile_filename]
    decide

/-- C8: the callback returns no error and leaves, after the files generated before it ran,
one generated file for each file of the request whose `Generate` flag is set, in request
order, and none for the others; the response built from it is an error without files or
holds every one of these files. -/
theorem C8_one_file_per_flagged_file (freshPackageName : List String → String → String)
    (gen : Plugin) (content : GeneratedFile → Except String String) :
    (pluginCallback freshPackageName gen).2 = none
      ∧ (pluginCallback freshPackageName gen).1.genFiles
          = gen.genFiles ++ (gen.Files.filter (·.Generate)).map
              (fun f => (GenerateFile freshPackageName gen f).2)
      ∧ (pluginCallback freshPackageName gen).1.genFiles.map (·.filename)
          = gen.genFiles.map (·.filename) ++ (gen.Files.filter (·.Generate)).map
              (fun f => f.GeneratedFilenamePrefix ++ ".pb.pool.go")
      ∧ (((Response content (pluginCallback freshPackageName gen).1
              (pluginCallback freshPackageName gen).2).error ≠ none
            ∧ (Response content (pluginCallback freshPackageName gen).1
              (pluginCallback freshPackageName gen).2).files = [])
          ∨ ((Response content (pluginCallback freshPackageName gen).1
              (pluginCallback freshPackageName gen).2).error = none
            ∧ (Response content (pluginCallback freshPackageName gen).1
                (pluginCallback freshPackageName gen).2).files.map Prod.fst
              = gen.genFiles.map (·.filename) ++ (gen.Files.filter (·.Generate)).map
                  (fun f => f.GeneratedFilenamePrefix ++ ".pb.pool.go"))) := by
  have hg : (pluginCallback freshPackageName gen).1.genFiles
      = gen.genFiles ++ (gen.Files.filter (·.Generate)).map
          (fun f => (GenerateFile freshPackageName gen f).2) :=
    foldl_callback_genFiles freshPackageName gen gen.Files gen
  have hn : (pluginCallback freshPackageName gen).1.genFiles.map (·.filename)
      = gen.genFiles.map (·.filename) ++ (gen.Files.filter (·.Generate)).map
          (fun f => f.GeneratedFilenamePrefix ++ ".pb.pool.go") := by
    rw [hg, List.map_append, List.map_map]
    congr 1
    apply List.map_congr_left
    intro f _
    exact GenerateFile_filename freshPackageName gen f
  refine ⟨rfl, hg, hn, ?_⟩
  have hr : Response content (pluginCallback freshPackageName gen).1
      (pluginCallback freshPackageName gen).2
      = responseFiles content (pluginCallback freshPackageName gen).1.genFiles [] := rfl
  rw [hr, ← hn]
  simpa using responseFiles_all_or_nothing content
    (pluginCallback freshPackageName gen).1.genFiles []

/-- C5, as stated, fails: the short names `Get` and `Pool` of `clashFile` are distinct
and not empty, yet the pool variable of `Get` and the `Get` accessor of `Pool` are both
`GetPool`. -/
theorem C5_counterexample :
    (clashFile.Messages.map Message.Name).Nodup
      ∧ (∀ m ∈ clashFile.Messages, m.Name ≠ "" ∧ NameIsValid m.Name = true)
      ∧ declaredIdents
          (GenerateFile examplePackageName (pluginOf [clashFile] false) clashFile).2.buf
          = ["GetPool", "GetGet", "PutGet", "PoolPool", "GetPool", "PutPool"]
      ∧ ¬ (declaredIdents
          (GenerateFile examplePackageName (pluginOf [clashFile] false) clashFile).2.buf).Nodup := by
  decide

/-- C5, amended: for a file whose messages have pairwise distinct valid short names
`s1..sn`, the identifiers `GenerateFile` declares are `<si>Pool`, `Get<si>`, `Put<si>`, and
they are pairwise distinct exactly when no pool variable `<si>Pool` has the name of an
accessor `Get<sj>` or `Put<sj>`; they are so when no short name begins with `Get` or
`Put`. -/
theorem C5_identifiers_distinct_iff (freshPackageName : List String → String → String)
    (gen : Plugin) (file : File)
    (hv : ∀ m ∈ file.Messages, NameIsValid m.Name = true)
    (hd : (file.Messages.map Message.Name).Nodup) :
    declaredIdents (GenerateFile freshPackageName gen file).2.buf
        = (file.Messages.map Message.Name).flatMap
            (fun s => [s ++ "Pool", "Get" ++ s, "Put" ++ s])
      ∧ ((declaredIdents (GenerateFile freshPackageName gen file).2.buf).Nodup
          ↔ ∀ s ∈ file.Messages.map Message.Name, ∀ t ∈ file.Messages.map Message.Name,
              s ++ "Pool" ≠ "Get" ++ t ∧ s ++ "Pool" ≠ "Put" ++ t)
      ∧ ((∀ s ∈ file.Messages.map Message.Name,
            startsWith "Get" s = false ∧ startsWith "Put" s = false) →
          (declaredIdents (GenerateFile freshPackageName gen file).2.buf).Nodup) := by
  have h := declaredIdents_GenerateFile freshPackageName gen file hv
  refine ⟨h, ?_, ?_⟩
  · rw [h]
    exact nodup_poolIdents_iff _ hd
  · intro hstart
    rw [h]
    exact (nodup_poolIdents_iff _ hd).2 fun s hs t _ =>
      no_clash_of_no_accessor_start s t (hstart s hs).1 (hstart s hs).2

/-- C5, amended, on the file of the integration test: `TestMessage` and `AnotherMessage`
are valid, distinct, and none of their pool variables is named like an accessor, so the six
identifiers are pairwise distinct. -/
theorem C5_identifiers_distinct_iff_witness :
    (∀ m ∈ testFile.Messages, NameIsValid m.Name = true)
      ∧ (testFile.Messages.map Message.Name).Nodup
      ∧ (declaredIdents
          (GenerateFile examplePackageName (pluginOf [testFile] false) testFile).2.buf).Nodup :=
  ⟨by decide, by decide,
    (C5_identifiers_distinct_iff examplePackageName (pluginOf [testFile] false) testFile
      (by decide) (by decide)).2.2 (by decide)⟩

/-- C9: `main` takes the version branch exactly on an argument vector of two elements whose
second is `--version`; it then writes the base name of the executable path, a blank,
`v0.0.1` and a newline to standard output and exits with status 0, and the plugin protocol
is not run; on every other argument vector it hands over to the plugin protocol. -/
theorem C9_version_branch (args : List String) :
    (∀ exe, args = [exe, "--version"] →
        main args = [Effect.writeStdout (filepathBase exe ++ " v0.0.1\n"), Effect.exit 0]
          ∧ Effect.runProtocol ∉ main args)
      ∧ ((¬ ∃ exe, args = [exe, "--version"]) → main args = [Effect.runProtocol])
      ∧ ((args.length = 2 ∧ args[1]? = some "--version") ↔ ∃ exe, args = [exe, "--version"]) := by
  have hiff : (args.length = 2 ∧ args[1]? = some "--version")
      ↔ ∃ exe, args = [exe, "--version"] := by
    constructor
    · rintro ⟨hl, h1⟩
      match args, hl, h1 with
      | [a, b], _, h1 =>
        simp only [List.getElem?_cons_succ, List.getElem?_cons_zero, Option.some.injEq] at h1
        exact ⟨a, by rw [h1]⟩
    · rintro ⟨exe, rfl⟩
      exact ⟨rfl, rfl⟩
  refine ⟨?_, ?_, hiff⟩
  · rintro exe rfl
    have hs : filepathBase exe ++ " " ++ "v0.0.1" ++ "\n" = filepathBase exe ++ " v0.0.1\n" := by
      apply String.ext
      simp [String.data_append]
    have hm : main [exe, "--version"]
        = [Effect.writeStdout (filepathBase exe ++ " v0.0.1\n"), Effect.exit 0] := by
      rw [← hs]
      rfl
    rw [hm]
    exact ⟨rfl, by simp⟩
  · intro hne
    unfold main
    rw [if_neg (fun h => hne (hiff.1 h))]

/-- C9 on the command line of the version test: the plugin invoked by its path with the
sole argument `--version`. -/
theorem C9_version_branch_witness :
    main ["/usr/local/bin/protoc-gen-gopool", "--version"]
        = [Effect.writeStdout "protoc-gen-gopool v0.0.1\n", Effect.exit 0]
      ∧ main ["protoc-gen-gopool"] = [Effect.runProtocol] :=
  ⟨((C9_version_branch ["/usr/local/bin/protoc-gen-gopool", "--version"]).1
      "/usr/local/bin/protoc-gen-gopool" rfl).1,
    (C9_version_branch ["protoc-gen-gopool"]).2.1 (by simp)⟩

/-- C10: two runs of `GenerateFile` on files (with Go import paths as `protogen` accepts
them) that agree on the Go package name, on the generated-filename prefix and on the
ordered list of pairs of short name and qualified Go identifier of their messages give the
same file name and the same lines, whatever the fields and nested messages, the other files
of the request and the value of `experimental_strip_nonfunctional_codegen`. -/
theorem C10_emission_deterministic (freshPackageName : List String → String → String)
    (gen gen' : Plugin) (file file' : File)
    (hvalid : GoImportPathIsValid file.GoImportPath = true)
    (hvalid' : GoImportPathIsValid file'.GoImportPath = true)
    (hpkg : file.GoPackageName = file'.GoPackageName)
    (hpre : file.GeneratedFilenamePrefix = file'.GeneratedFilenamePrefix)
    (hmsgs : file.Messages.map (fun m => (m.Name, qualified freshPackageName
          (GenerateFile freshPackageName gen file).2 m.GoIdent))
        = file'.Messages.map (fun m => (m.Name, qualified freshPackageName
          (GenerateFile freshPackageName gen' file').2 m.GoIdent))) :
    (GenerateFile freshPackageName gen file).2.filename
        = (GenerateFile freshPackageName gen' file').2.filename
      ∧ (GenerateFile freshPackageName gen file).2.buf
        = (GenerateFile freshPackageName gen' file').2.buf :=
  GenerateFile_congr freshPackageName gen gen' file file' hpkg hpre
    (by rw [poolName_of_valid freshPackageName hvalid,
      poolName_of_valid freshPackageName hvalid'])
    hmsgs

/-- C10 on the file of the integration test and a file with the same message names but
other fields and a nested message, generated in a request that also holds a dependency and
sets the strip parameter. -/
theorem C10_emission_deterministic_witness :
    (GenerateFile examplePackageName (pluginOf [testFile] false) testFile).2.filename
        = (GenerateFile examplePackageName (pluginOf [depFile, testFileVariant] true)
            testFileVariant).2.filename
      ∧ (GenerateFile examplePackageName (pluginOf [testFile] false) testFile).2.buf
        = (GenerateFile examplePackageName (pluginOf [depFile, testFileVariant] true)
            testFileVariant).2.buf :=
  C10_emission_deterministic examplePackageName (pluginOf [testFile] false)
    (pluginOf [depFile, testFileVariant] true) testFile testFileVariant
    (by decide) (by decide) rfl rfl (by decide)

end Gopool
